import Mathlib

/-!
Shallow embedding of `mullvad_wrapper/mullvad.py`: a thin wrapper that runs
the external `mullvad` CLI binary and parses its human-readable stdout into
typed records.  Python strings are embedded as Lean `String`s (with the
character-level work done on `List Char`), the regular expressions of the
source are transliterated into a small backtracking engine with Python
`re.match` semantics (leftmost, greedy, numbered capture groups), raised
exceptions become an explicit `Exc` error type carried in `Except`, and the
subprocess boundary becomes an oracle `exec : List String → String × String`
(stdout, stderr of a successful run) together with an explicit trace of the
argument vectors handed to it.
-/

/-! ## Python string primitives -/

/-- Characters stripped by Python `str.strip()` (the `str.isspace()` set). -/
def isPySpace (c : Char) : Bool :=
  c = ' ' || c = '\t' || c = '\n' || c = '\r' || c = '\x0b' || c = '\x0c' ||
  c = '\x1c' || c = '\x1d' || c = '\x1e' || c = '\x1f' || c = '\x85' ||
  c = ' ' || c = ' ' || (' ' ≤ c && c ≤ ' ') ||
  c = ' ' || c = ' ' || c = ' ' || c = ' ' || c = '　'

/-- Drop trailing characters satisfying `p` (helper for `strip`). -/
def dropTrailing (p : Char → Bool) (s : List Char) : List Char :=
  (s.reverse.dropWhile p).reverse

/-- Python `str.strip()` on a character list. -/
def pyStripList (s : List Char) : List Char :=
  dropTrailing isPySpace (s.dropWhile isPySpace)

/-- Python `str.strip()`. -/
def pyStrip (s : String) : String := ⟨pyStripList s.data⟩

/-- Python `str.lstrip("\t")`. -/
def lstripTabs (s : String) : String := ⟨s.data.dropWhile (fun c => c = '\t')⟩

/-- `len(line[: len(line) - len(line.lstrip("\t"))])`: the number of leading
tab characters of `line` (source: `Mullvad.relay_list`). -/
def leadingTabs (line : String) : Nat :=
  line.data.length - (lstripTabs line).data.length

/-- Python `str.lower()` (ASCII case folding; the parsed CLI output is
ASCII). -/
def pyLower (s : String) : String := ⟨s.data.map Char.toLower⟩

/-- Does `pre` start the list `s`? -/
def startsWithList (pre s : List Char) : Bool :=
  match pre, s with
  | [], _ => true
  | _ :: _, [] => false
  | c :: cs, d :: ds => c = d && startsWithList cs ds

/-- Python `needle in hay` substring test, on character lists. -/
def containsList (hay needle : List Char) : Bool :=
  startsWithList needle hay ||
    match hay with
    | [] => false
    | _ :: t => containsList t needle

/-- Python `needle in hay` substring test. -/
def containsStr (hay needle : String) : Bool := containsList hay.data needle.data

/-- Python truthiness of a string: non-empty strings are truthy. -/
def pyTruthy (s : String) : Bool := !s.data.isEmpty

/-- Characters that terminate a line for Python `str.splitlines()`. -/
def isLineBoundary (c : Char) : Bool :=
  c = '\n' || c = '\r' || c = '\x0b' || c = '\x0c' || c = '\x1c' ||
  c = '\x1d' || c = '\x1e' || c = '\x85' || c = ' ' || c = ' '

/-- Worker for `str.splitlines()`: `acc` is the current line, reversed.  A
terminator at the very end of the input produces a final empty piece, which
`pySplitlines` removes (Python emits no empty line after a trailing
terminator). -/
def splitlinesGo (acc : List Char) : List Char → List (List Char)
  | [] => [acc.reverse]
  | '\r' :: '\n' :: rest => acc.reverse :: splitlinesGo [] rest
  | c :: rest =>
    if isLineBoundary c then acc.reverse :: splitlinesGo [] rest
    else splitlinesGo (c :: acc) rest

/-- Python `str.splitlines()`. -/
def pySplitlines (s : String) : List String :=
  match s.data with
  | [] => []
  | l =>
    let parts := splitlinesGo [] l
    let parts := if l.getLast?.any isLineBoundary then parts.dropLast else parts
    parts.map (fun cs => (⟨cs⟩ : String))

/-- Split at the first occurrence of `sep`; `none` when `sep` is absent.
`some (a, b)` corresponds to Python `s.split(sep, 1) == [a, b]`. -/
def splitFirstOn (sep : Char) : List Char → Option (List Char × List Char)
  | [] => none
  | c :: rest =>
    if c = sep then some ([], rest)
    else (splitFirstOn sep rest).map (fun p => (c :: p.1, p.2))

/-- Python `s.split("\n", 1)`: first line, and the remainder when a newline
exists (indexing `[1]` into the result raises `IndexError` otherwise). -/
def splitNl1 (s : String) : String × Option String :=
  match splitFirstOn '\n' s.data with
  | some (a, b) => (⟨a⟩, some ⟨b⟩)
  | none => (s, none)

/-! ## Exceptions and record types

`Exc` models the Python exceptions that the wrapper's code paths can raise:
the repository's own hierarchy `MullvadError` / `FailedToParseOutput`
(`FailedToParseOutput` subclasses `MullvadError`), plus the builtin
exceptions reachable from the parsing code (`KeyError` from a dict lookup,
`IndexError` from `split("\n", 1)[1]`, `ValueError` from an enum-by-value
lookup, and the `dateutil` parse error, a `ValueError` subclass). -/

inductive Exc where
  | mullvadError (msg : String)
  | failedToParseOutput (msg : String)
  | keyError (key : String)
  | indexError
  | valueError (msg : String)
  | dtParseError (msg : String)
deriving DecidableEq

/-- `isinstance(e, MullvadError)`: true exactly for the repository's own
exception classes. -/
def Exc.isMullvadError : Exc → Bool
  | .mullvadError _ => true
  | .failedToParseOutput _ => true
  | _ => false

/-- `isinstance(e, FailedToParseOutput)`. -/
def Exc.isFailedToParseOutput : Exc → Bool
  | .failedToParseOutput _ => true
  | _ => false

/-- The `StatusName` enum of the source. -/
inductive StatusName where
  | connected
  | disconnected
  | connecting
  | disconnecting
deriving DecidableEq

/-- The `value` of each `StatusName` member. -/
def StatusName.value : StatusName → String
  | .connected => "connected"
  | .disconnected => "disconnected"
  | .connecting => "connecting"
  | .disconnecting => "disconnecting"

/-- Python `StatusName(s)`: enum lookup by value (raises `ValueError` when
no member has value `s`; the caller maps `none` to that error). -/
def StatusName.ofValue (s : String) : Option StatusName :=
  if s = "connected" then some .connected
  else if s = "disconnected" then some .disconnected
  else if s = "connecting" then some .connecting
  else if s = "disconnecting" then some .disconnecting
  else none

/-- The `Status` dataclass. -/
structure Status where
  connected : Bool
  status : StatusName
  server_name : Option String := none
  location : Option String := none
  ipv4 : Option String := none
  position : Option String := none
deriving DecidableEq

/-- Stand-in for `datetime.datetime`; produced only by the abstracted
`dateutil.parser.parse`, whose implementation is third-party and is passed
to `get_account` as an oracle. -/
structure PyDateTime where
  raw : String
deriving DecidableEq

/-- The `Account` dataclass. -/
structure Account where
  token : String
  expiration : PyDateTime
deriving DecidableEq

/-- The `Relay` dataclass. -/
structure Relay where
  country : String
  country_code : String
  city : String
  city_code : String
  location : String
  hostname : String
  ipv4 : String
  ipv6 : Option String
  protocol : String
  provider : String
  ownership : String
deriving DecidableEq

/-! ## Regular expressions

A small backtracking engine with Python `re.match` semantics for the
constructs the source's four patterns use: literals, character classes,
greedy `+` over a class, greedy `?`, alternation, concatenation and
numbered capture groups.  Alternatives are tried left first and repetition
prefers the longest match, exactly as Python's backtracking engine does, so
on these patterns the engine computes the same match and the same group
captures as `re.match`. -/

inductive RE where
  | lit (cs : List Char)
  | one (cls : Char → Bool)
  | plus (cls : Char → Bool)
  | opt (r : RE)
  | alt (r1 r2 : RE)
  | seq (r1 r2 : RE)
  | grp (n : Nat) (r : RE)

/-- Capture list: group number paired with the captured text.  More recent
captures sit nearer the head; `capLookup` takes the first hit. -/
abbrev Caps := List (Nat × String)

/-- `m.group(n)` (`none` when the group did not participate). -/
def capLookup : Caps → Nat → Option String
  | [], _ => none
  | (m, v) :: rest, n => if m = n then some v else capLookup rest n

/-- Strip the literal `l` from the front of `s`. -/
def dropLit : List Char → List Char → Option (List Char)
  | [], s => some s
  | _ :: _, [] => none
  | c :: cs, d :: ds => if c = d then dropLit cs ds else none

/-- Greedy `cls+`: consume one or more `cls` characters, preferring the
longest run, then hand the remainder to the continuation `k`. -/
def plusGo (cls : Char → Bool) (k : List Char → Option Caps) : List Char → Option Caps
  | [] => none
  | c :: rest =>
    if cls c then
      match plusGo cls k rest with
      | some res => some res
      | none => k rest
    else none

/-- The matcher, in continuation-passing style: `matchGo r s g k` matches
`r` against a prefix of `s` with capture list `g`, calling `k` on the
remainder and the extended captures; backtracking is expressed by trying
continuations in priority order. -/
def matchGo : RE → List Char → Caps → (List Char → Caps → Option Caps) → Option Caps
  | .lit l, s, g, k =>
    match dropLit l s with
    | some rest => k rest g
    | none => none
  | .one cls, s, g, k =>
    match s with
    | c :: rest => if cls c then k rest g else none
    | [] => none
  | .plus cls, s, g, k => plusGo cls (fun rest => k rest g) s
  | .opt r, s, g, k =>
    match matchGo r s g k with
    | some res => some res
    | none => k s g
  | .alt r1 r2, s, g, k =>
    match matchGo r1 s g k with
    | some res => some res
    | none => matchGo r2 s g k
  | .seq r1 r2, s, g, k => matchGo r1 s g (fun s' g' => matchGo r2 s' g' k)
  | .grp n r, s, g, k =>
    matchGo r s g (fun s' g' => k s' ((n, ⟨s.take (s.length - s'.length)⟩) :: g'))

/-- The `$` anchor of the source's patterns, as the final continuation:
Python `$` accepts the end of the input or a position just before a final
newline. -/
def reEnd : List Char → Caps → Option Caps :=
  fun rest g => if rest = [] || rest = ['\n'] then some g else none

/-- `re.match` of a pattern of the shape `^...$` (all four patterns of the
source are anchored like this): the match must start at the beginning and
`$` accepts the end of the input or a final newline. -/
def reMatchAnchored (r : RE) (s : String) : Option Caps :=
  matchGo r s.data [] reEnd

/-- Concatenation of a pattern list. -/
def reSeq (rs : List RE) : RE :=
  match rs with
  | [] => .lit []
  | [r] => r
  | r :: rest => .seq r (reSeq rest)

/-- A literal pattern piece. -/
def L (s : String) : RE := .lit s.data

/-- `\w` (with `[0-9]`, `[a-z]` and friends below; ASCII reading of the
Unicode classes, which is what the parsed CLI output contains). -/
def isWordChar (c : Char) : Bool := c.isAlphanum || c = '_'

/-- `^([\w ]+) \(([a-z]+)\)$` — `Mullvad._parse_relay_list_country_line`. -/
def countryRE : RE :=
  reSeq [.grp 1 (.plus (fun c => isWordChar c || c = ' ')),
         L " (",
         .grp 2 (.plus Char.isLower),
         L ")"]

/-- `^([\w\,\[\] ]+) \(([a-z]+)\) \@ (\-?\d+\.\d+\°N\, \-?\d+\.\d+\°W)$` —
`Mullvad._parse_relay_list_city_line`. -/
def cityRE : RE :=
  reSeq [.grp 1 (.plus (fun c => isWordChar c || c = ',' || c = '[' || c = ']' || c = ' ')),
         L " (",
         .grp 2 (.plus Char.isLower),
         L ") @ ",
         .grp 3 (reSeq [.opt (L "-"), .plus Char.isDigit, L ".", .plus Char.isDigit,
                        L "°N, ",
                        .opt (L "-"), .plus Char.isDigit, L ".", .plus Char.isDigit,
                        L "°W"])]

/-- `^([a-z0-9\-]+) \(([0-9\.]+)(?:, ([0-9a-f\:]+))?\) \- ([a-zA-Z]+)\, hosted by
([a-zA-Z0-9]+) \(((?:rented)|(?:Mullvad-owned))\)$` —
`Mullvad._parse_relay_list_server_line`. -/
def serverRE : RE :=
  reSeq [.grp 1 (.plus (fun c => c.isLower || c.isDigit || c = '-')),
         L " (",
         .grp 2 (.plus (fun c => c.isDigit || c = '.')),
         .opt (.seq (L ", ") (.grp 3 (.plus (fun c => c.isDigit || ('a' ≤ c && c ≤ 'f') || c = ':')))),
         L ") - ",
         .grp 4 (.plus Char.isAlpha),
         L ", hosted by ",
         .grp 5 (.plus Char.isAlphanum),
         L " (",
         .grp 6 (.alt (L "rented") (L "Mullvad-owned")),
         L ")"]

/-- `^((?:Connected)|(?:Connecting)) to ([a-zA-Z0-9\-]+) in ([\w \,\-]+)(?:\.\.\.)?$`
— `Mullvad.status`. -/
def statusRE : RE :=
  reSeq [.grp 1 (.alt (L "Connected") (L "Connecting")),
         L " to ",
         .grp 2 (.plus (fun c => c.isAlphanum || c = '-')),
         L " in ",
         .grp 3 (.plus (fun c => isWordChar c || c = ' ' || c = ',' || c = '-')),
         .opt (L "...")]

/-! ## The line parsers and `relay_list` -/

/-- `Mullvad._parse_relay_list_country_line`. -/
def parseCountryLine (line : String) : Except Exc (String × String) :=
  let sl := pyStrip line
  match reMatchAnchored countryRE sl with
  | some caps => .ok ((capLookup caps 1).getD "", (capLookup caps 2).getD "")
  | none => .error (.failedToParseOutput sl)

/-- `Mullvad._parse_relay_list_city_line`. -/
def parseCityLine (line : String) : Except Exc (String × String × String) :=
  let sl := pyStrip line
  match reMatchAnchored cityRE sl with
  | some caps =>
    .ok ((capLookup caps 1).getD "", (capLookup caps 2).getD "", (capLookup caps 3).getD "")
  | none => .error (.failedToParseOutput sl)

/-- `Mullvad._parse_relay_list_server_line`.  Group 3 (the IPv6 address) is
optional in the pattern, so it comes back as `m.group(3)` itself — an
`Option`; groups 1, 2, 4, 5, 6 always participate in a successful match, so
their `getD ""` defaults are dead. -/
def parseServerLine (line : String) :
    Except Exc (String × String × Option String × String × String × String) :=
  let sl := pyStrip line
  match reMatchAnchored serverRE sl with
  | some caps =>
    .ok ((capLookup caps 1).getD "", (capLookup caps 2).getD "", capLookup caps 3,
         (capLookup caps 4).getD "", (capLookup caps 5).getD "", (capLookup caps 6).getD "")
  | none => .error (.failedToParseOutput sl)

/-- The loop body of `Mullvad.relay_list`: walk the lines keeping the most
recently parsed country and city and the relays accumulated so far. -/
def processRelayLines (country : Option (String × String))
    (city : Option (String × String × String)) (acc : List Relay) :
    List String → Except Exc (List Relay)
  | [] => .ok acc
  | line :: rest =>
    if pyStrip line = "" then processRelayLines country city acc rest
    else
      match leadingTabs line with
      | 0 =>
        match parseCountryLine line with
        | .ok c => processRelayLines (some c) city acc rest
        | .error e => .error e
      | 1 =>
        match parseCityLine line with
        | .ok ct => processRelayLines country (some ct) acc rest
        | .error e => .error e
      | 2 =>
        match parseServerLine line with
        | .ok (hostname, ipv4, ipv6, protocol, provider, ownership) =>
          match country with
          | none => .error (.failedToParseOutput ("No country before line: " ++ line))
          | some c =>
            match city with
            | none => .error (.failedToParseOutput ("No city before line: " ++ line))
            | some ct =>
              processRelayLines country city
                (acc ++ [{ country := c.1, country_code := c.2, city := ct.1,
                           city_code := ct.2.1, location := ct.2.2, hostname := hostname,
                           ipv4 := ipv4, ipv6 := ipv6, protocol := protocol,
                           provider := provider, ownership := ownership }]) rest
        | .error e => .error e
      | _ => .error (.failedToParseOutput line)

/-- The parsing part of `Mullvad.relay_list`, as a function of the captured
stdout. -/
def relayListParse (output : String) : Except Exc (List Relay) :=
  processRelayLines none none [] (pySplitlines output)

/-! ## Key-value blocks, lockdown mode, status, account -/

/-- Assignment into a Python `dict` modelled as an ordered association
list: an existing key is updated in place, a new key is appended. -/
def dictInsert (d : List (String × String)) (k v : String) : List (String × String) :=
  match d with
  | [] => [(k, v)]
  | (k0, v0) :: rest => if k0 = k then (k0, v) :: rest else (k0, v0) :: dictInsert rest k v

/-- `d.get(k, None)` / `d[k]` lookup on the modelled dict. -/
def dictLookup (d : List (String × String)) (k : String) : Option String :=
  match d with
  | [] => none
  | (k0, v0) :: rest => if k0 = k then some v0 else dictLookup rest k

/-- The loop of `Mullvad._parse_key_value_output`; `output` is kept whole
because the strict branch raises `FailedToParseOutput(output)`. -/
def parseKVLines (strict : Bool) (output : String) (acc : List (String × String)) :
    List String → Except Exc (List (String × String))
  | [] => .ok acc
  | line :: rest =>
    match splitFirstOn ':' line.data with
    | none =>
      if strict then .error (.failedToParseOutput output)
      else parseKVLines strict output acc rest
    | some (k, v) =>
      parseKVLines strict output (dictInsert acc (pyLower (pyStrip ⟨k⟩)) (pyStrip ⟨v⟩)) rest

/-- `Mullvad._parse_key_value_output`. -/
def parseKeyValueOutput (output : String) (strict : Bool := true) :
    Except Exc (List (String × String)) :=
  parseKVLines strict output [] (pySplitlines (pyStrip output))

/-- The parsing part of `Mullvad.lockdown_mode` when called without a new
value (source lines 72–77).  The source's second test reads
`if "traffic will be blocked":` — the truthiness of a non-empty string
literal, not a membership test — and is transliterated via `pyTruthy`. -/
def lockdownModeGetParse (output : String) : Except Exc Bool :=
  if containsStr output "traffic will be allowed" then .ok false
  else if pyTruthy "traffic will be blocked" then .ok true
  else .error (.failedToParseOutput output)

/-- The parsing part of `Mullvad.status`, as a function of the captured
stdout and the `full` flag. -/
def statusParse (output : String) (full : Bool) : Except Exc Status :=
  let tunnel_status := pyStrip (splitNl1 output).1
  let strict := !(full && containsStr (pyLower output) "location data unavailable")
  match (splitNl1 output).2 with
  | none => .error .indexError
  | some rest =>
    match parseKeyValueOutput rest strict with
    | .error e => .error e
    | .ok parsed =>
      let disconnected := containsStr (pyLower tunnel_status) "disconnected"
      if disconnected || containsStr (pyLower tunnel_status) "disconnecting" then
        .ok { connected := false,
              status := if disconnected then .disconnected else .disconnecting,
              ipv4 := dictLookup parsed "ipv4",
              position := dictLookup parsed "position" }
      else
        match reMatchAnchored statusRE tunnel_status with
        | some caps =>
          match StatusName.ofValue (pyLower ((capLookup caps 1).getD "")) with
          | some sn =>
            .ok { connected := pyLower ((capLookup caps 1).getD "") = "connected",
                  status := sn,
                  server_name := capLookup caps 2,
                  location := capLookup caps 3,
                  ipv4 := dictLookup parsed "ipv4",
                  position := dictLookup parsed "position" }
          | none => .error (.valueError (pyLower ((capLookup caps 1).getD "")))
        | none => .error (.failedToParseOutput tunnel_status)

/-- The parsing part of `Mullvad.get_account`: a strict key-value parse,
two dict indexings (a missing key raises `KeyError`), and the third-party
date parser abstracted as the oracle `dtp`. -/
def getAccountParse (dtp : String → Option PyDateTime) (output : String) :
    Except Exc Account :=
  match parseKeyValueOutput output true with
  | .error e => .error e
  | .ok d =>
    match dictLookup d "mullvad account" with
    | none => .error (.keyError "mullvad account")
    | some tok =>
      match dictLookup d "expires at" with
      | none => .error (.keyError "expires at")
      | some exp =>
        match dtp exp with
        | none => .error (.dtParseError exp)
        | some t => .ok { token := tok, expiration := t }

/-! ## Process invocation

`Mullvad._execute` runs `subprocess.run(cmd, capture_output=True,
shell=False, check=True)` and returns decoded `(stdout, stderr)`.  The
subprocess boundary is abstracted as an oracle giving the output of a
successful run, and every operation returns, next to its result, the trace
of argument vectors it handed to the oracle. -/

abbrev ExecOracle := List String → String × String

/-- `Mullvad.get_account` (with the third-party date parser `dtp`). -/
def getAccountOp (dtp : String → Option PyDateTime) (exec : ExecOracle) :
    Except Exc Account × List (List String) :=
  (getAccountParse dtp (exec ["mullvad", "account", "get"]).1,
   [["mullvad", "account", "get"]])

/-- `Mullvad.lockdown_mode`. -/
def lockdownModeOp (exec : ExecOracle) (new_value : Option Bool) :
    Except Exc Bool × List (List String) :=
  match new_value with
  | some v =>
    let policy := if v then "on" else "off"
    (.ok v, [["mullvad", "lockdown-mode", "set", policy]])
  | none =>
    (lockdownModeGetParse (exec ["mullvad", "lockdown-mode", "get"]).1,
     [["mullvad", "lockdown-mode", "get"]])

/-- `Mullvad.status`. -/
def statusOp (exec : ExecOracle) (full : Bool) : Except Exc Status × List (List String) :=
  let location_arg := if full then ["--location"] else []
  (statusParse (exec (["mullvad", "status"] ++ location_arg)).1 full,
   [["mullvad", "status"] ++ location_arg])

/-- `Mullvad.relay_list`. -/
def relayListOp (exec : ExecOracle) : Except Exc (List Relay) × List (List String) :=
  (relayListParse (exec ["mullvad", "relay", "list"]).1, [["mullvad", "relay", "list"]])

/-- `Mullvad._connection_change`. -/
def connectionChangeOp (exec : ExecOracle) (change_cmd : String) (wait : Bool) :
    Except Exc Unit × List (List String) :=
  let wait_param := if wait then ["--wait"] else []
  let _ := exec (["mullvad", change_cmd] ++ wait_param)
  (.ok (), [["mullvad", change_cmd] ++ wait_param])

/-- `Mullvad.connect`. -/
def connectOp (exec : ExecOracle) (wait : Bool) : Except Exc Unit × List (List String) :=
  connectionChangeOp exec "connect" wait

/-- `Mullvad.disconnect`. -/
def disconnectOp (exec : ExecOracle) (wait : Bool) : Except Exc Unit × List (List String) :=
  connectionChangeOp exec "disconnect" wait

/-- `Mullvad.reconnect`. -/
def reconnectOp (exec : ExecOracle) (wait : Bool) : Except Exc Unit × List (List String) :=
  connectionChangeOp exec "reconnect" wait

/-- The dynamically-typed argument of `Mullvad.set_relay`: a `Relay`, a
`str`, or anything else (the `case _` of the source's `match`). -/
inductive SetRelayArg where
  | ofRelay (r : Relay)
  | ofStr (s : String)
  | other (reprStr : String)

/-- `Mullvad._set_relay`. -/
def setRelayHostname (exec : ExecOracle) (hostname : String) :
    Except Exc Unit × List (List String) :=
  let _ := exec ["mullvad", "relay", "set", "location", hostname]
  (.ok (), [["mullvad", "relay", "set", "location", hostname]])

/-- `Mullvad.set_relay` (the source's error message keeps the stray `f` of
its malformed f-string `f"unexpected relay: f{relay!r}"`). -/
def setRelayOp (exec : ExecOracle) (relay : SetRelayArg) :
    Except Exc Unit × List (List String) :=
  match relay with
  | .ofRelay r => setRelayHostname exec r.hostname
  | .ofStr s => setRelayHostname exec s
  | .other o => (.error (.mullvadError ("unexpected relay: f" ++ o)), [])

/-! ## Claim theorems -/

/-- **C7** — Every public operation invokes the external binary exactly
once per call with its fixed argument vector: `get_account` runs
`mullvad account get`, `relay_list` runs `mullvad relay list`, `status`
runs `mullvad status` with `--location` appended exactly when `full` is
true, and `connect` / `disconnect` / `reconnect` run `mullvad <command>`
with `--wait` appended exactly when `wait` is true. -/
theorem claim_c7_fixed_argument_vectors (exec : ExecOracle)
    (dtp : String → Option PyDateTime) (full wait : Bool) :
    (getAccountOp dtp exec).2 = [["mullvad", "account", "get"]] ∧
    (relayListOp exec).2 = [["mullvad", "relay", "list"]] ∧
    (statusOp exec full).2 = [["mullvad", "status"] ++ (if full then ["--location"] else [])] ∧
    (connectOp exec wait).2 = [["mullvad", "connect"] ++ (if wait then ["--wait"] else [])] ∧
    (disconnectOp exec wait).2 = [["mullvad", "disconnect"] ++ (if wait then ["--wait"] else [])] ∧
    (reconnectOp exec wait).2 = [["mullvad", "reconnect"] ++ (if wait then ["--wait"] else [])] :=
  ⟨rfl, rfl, rfl, rfl, rfl, rfl⟩

/-- **C8** — `lockdown_mode(b)` with a non-`None` argument issues the set
command (`on` for `True`, `off` for `False`) and returns exactly `b`; the
result does not depend on the command's output (the operation is the same
under every oracle, so nothing of the output is parsed). -/
theorem claim_c8_lockdown_set_echoes_argument (exec exec' : ExecOracle) (b : Bool) :
    lockdownModeOp exec (some b) =
      (.ok b, [["mullvad", "lockdown-mode", "set", if b then "on" else "off"]]) ∧
    lockdownModeOp exec (some b) = lockdownModeOp exec' (some b) :=
  ⟨rfl, rfl⟩

/-- **C9** — `set_relay(r)` and `set_relay(r.hostname)` are equivalent,
both invoking `mullvad relay set location <r.hostname>`; an argument that
is neither a `Relay` nor a `str` raises a `MullvadError` (and runs
nothing). -/
theorem claim_c9_set_relay_equivalence (exec : ExecOracle) (r : Relay) (x : String) :
    setRelayOp exec (.ofRelay r) = setRelayOp exec (.ofStr r.hostname) ∧
    (setRelayOp exec (.ofRelay r)).2 = [["mullvad", "relay", "set", "location", r.hostname]] ∧
    ∃ m, setRelayOp exec (.other x) = (.error (.mullvadError m), []) ∧
      (Exc.mullvadError m).isMullvadError = true :=
  ⟨rfl, rfl, "unexpected relay: f" ++ x, rfl, rfl⟩

/-- **C2** — The claim says a lockdown-mode `get` output containing neither
"traffic will be allowed" nor "traffic will be blocked" makes
`lockdown_mode()` raise `FailedToParseOutput`; the code instead returns
`True` on such output, because line 75 tests the truthiness of the string
literal `"traffic will be blocked"` (always true) rather than membership in
the output, leaving the `raise` on line 77 unreachable.  Evaluated here on
the output `"gibberish"`, which contains neither phrase. -/
theorem claim_c2_lockdown_get_bug_eval :
    containsStr "gibberish" "traffic will be allowed" = false ∧
    containsStr "gibberish" "traffic will be blocked" = false ∧
    lockdownModeGetParse "gibberish" = .ok true :=
  ⟨rfl, rfl, rfl⟩

/-! ## Specification-side characterization of the key-value parser -/

/-- The contribution of a single line to the key-value dict: `none` for a
line without a colon (skipped), otherwise the pair
`lowercase(trim(K)) ↦ trim(V)` of `K: V`. -/
def lineToPair (l : String) : Option (String × String) :=
  (splitFirstOn ':' l.data).map (fun p => (pyLower (pyStrip ⟨p.1⟩), pyStrip ⟨p.2⟩))

/-- All key-value pairs of an output, in line order. -/
def kvPairsOf (output : String) : List (String × String) :=
  (pySplitlines (pyStrip output)).filterMap lineToPair

/-- The value of the last pair carrying key `k`: the later occurrence wins. -/
def lastValue (ps : List (String × String)) (k : String) : Option String :=
  match ps with
  | [] => none
  | p :: rest =>
    match lastValue rest k with
    | some v => some v
    | none => if p.1 = k then some p.2 else none

theorem dictLookup_insert (d : List (String × String)) (k v k' : String) :
    dictLookup (dictInsert d k v) k' = if k' = k then some v else dictLookup d k' := by
  induction d with
  | nil =>
    simp only [dictInsert, dictLookup]
    rcases eq_or_ne k' k with h | h
    · subst h; simp
    · simp [h, Ne.symm h]
  | cons p rest ih =>
    simp only [dictInsert]
    by_cases h1 : p.1 = k
    · simp only [h1, if_pos rfl, dictLookup]
      rcases eq_or_ne k' k with h | h
      · subst h; simp
      · simp [h, Ne.symm h]
    · simp only [if_neg h1, dictLookup, ih]
      by_cases h2 : p.1 = k'
      · have h3 : k' ≠ k := fun hk => h1 (h2.trans hk)
        simp [h2, h3]
      · simp [h2]

theorem parseKVLines_false_ok (output : String) (lines : List String) :
    ∀ acc, parseKVLines false output acc lines =
      .ok ((lines.filterMap lineToPair).foldl (fun d p => dictInsert d p.1 p.2) acc) := by
  induction lines with
  | nil => intro acc; rfl
  | cons l rest ih =>
    intro acc
    simp only [parseKVLines, List.filterMap_cons, lineToPair]
    match h : splitFirstOn ':' l.data with
    | none => simp [h, ih]
    | some (k, v) => simp [h, ih, List.foldl_cons]

theorem dictLookup_foldl_insert (ps : List (String × String)) :
    ∀ (acc : List (String × String)) (k : String),
      dictLookup (ps.foldl (fun d p => dictInsert d p.1 p.2) acc) k =
        (lastValue ps k).elim (dictLookup acc k) some := by
  induction ps with
  | nil => intro acc k; rfl
  | cons p rest ih =>
    intro acc k
    simp only [List.foldl_cons, ih, lastValue]
    match hlv : lastValue rest k with
    | some v => simp
    | none =>
      simp only [Option.elim]
      rw [dictLookup_insert]
      rcases eq_or_ne p.1 k with h | h
      · subst h; simp
      · simp [h, Ne.symm h]

/-- **C10** — With `strict=False`, `_parse_key_value_output` never raises:
for every input it returns a dict in which lines without a colon are
skipped, each line `K: V` contributes `lowercase(trim(K)) ↦ trim(V)`, and
when the same key occurs on several lines the last occurrence wins. -/
theorem claim_c10_key_value_lenient_total (output k : String) :
    ∃ d, parseKeyValueOutput output false = .ok d ∧
      dictLookup d k = lastValue (kvPairsOf output) k := by
  refine ⟨(kvPairsOf output).foldl (fun d p => dictInsert d p.1 p.2) [], ?_, ?_⟩
  · exact parseKVLines_false_ok output (pySplitlines (pyStrip output)) []
  · rw [dictLookup_foldl_insert]
    match lastValue (kvPairsOf output) k with
    | some v => rfl
    | none => rfl

/-! ## All parse failures are `FailedToParseOutput` -/

theorem parseKVLines_error_isFTPO (output : String) (lines : List String) :
    ∀ strict acc e, parseKVLines strict output acc lines = .error e →
      e.isFailedToParseOutput = true := by
  induction lines with
  | nil => intro strict acc e h; exact Except.noConfusion h
  | cons l rest ih =>
    intro strict acc e h
    simp only [parseKVLines] at h
    split at h
    · split at h
      · cases h; rfl
      · exact ih _ _ _ h
    · exact ih _ _ _ h

theorem parseKeyValueOutput_error_isFTPO (output : String) (strict : Bool) (e : Exc) :
    parseKeyValueOutput output strict = .error e → e.isFailedToParseOutput = true := by
  intro h
  exact parseKVLines_error_isFTPO output (pySplitlines (pyStrip output)) strict [] e h

theorem parseCountryLine_error_isFTPO (line : String) (e : Exc) :
    parseCountryLine line = .error e → e.isFailedToParseOutput = true := by
  intro h
  simp only [parseCountryLine] at h
  split at h
  · exact Except.noConfusion h
  · cases h; rfl

theorem parseCityLine_error_isFTPO (line : String) (e : Exc) :
    parseCityLine line = .error e → e.isFailedToParseOutput = true := by
  intro h
  simp only [parseCityLine] at h
  split at h
  · exact Except.noConfusion h
  · cases h; rfl

theorem parseServerLine_error_isFTPO (line : String) (e : Exc) :
    parseServerLine line = .error e → e.isFailedToParseOutput = true := by
  intro h
  simp only [parseServerLine] at h
  split at h
  · exact Except.noConfusion h
  · cases h; rfl

theorem processRelayLines_error_isFTPO (lines : List String) :
    ∀ c ct acc e, processRelayLines c ct acc lines = .error e →
      e.isFailedToParseOutput = true := by
  induction lines with
  | nil => intro c ct acc e h; exact Except.noConfusion h
  | cons line rest ih =>
    intro c ct acc e h
    simp only [processRelayLines] at h
    split at h
    · exact ih _ _ _ _ h
    · split at h
      · -- country line
        split at h
        · exact ih _ _ _ _ h
        · next e' heq => cases h; exact parseCountryLine_error_isFTPO _ _ heq
      · -- city line
        split at h
        · exact ih _ _ _ _ h
        · next e' heq => cases h; exact parseCityLine_error_isFTPO _ _ heq
      · -- server line
        split at h
        · split at h
          · cases h; rfl
          · split at h
            · cases h; rfl
            · exact ih _ _ _ _ h
        · next e' heq => cases h; exact parseServerLine_error_isFTPO _ _ heq
      · -- more than two tabs
        cases h; rfl

theorem relayListParse_error_isFTPO (output : String) (e : Exc) :
    relayListParse output = .error e → e.isFailedToParseOutput = true :=
  processRelayLines_error_isFTPO _ none none [] e

theorem statusParse_family_error_isFTPO (output : String) (full : Bool) (e : Exc) :
    statusParse output full = .error e → e.isMullvadError = true →
      e.isFailedToParseOutput = true := by
  intro h hm
  simp only [statusParse] at h
  split at h
  · cases h; exact Bool.noConfusion hm
  · split at h
    · next e' heq => cases h; exact parseKeyValueOutput_error_isFTPO _ _ _ heq
    · split at h
      · exact Except.noConfusion h
      · split at h
        · split at h
          · exact Except.noConfusion h
          · cases h; exact Bool.noConfusion hm
        · cases h; rfl

theorem getAccountParse_family_error_isFTPO (dtp : String → Option PyDateTime)
    (output : String) (e : Exc) :
    getAccountParse dtp output = .error e → e.isMullvadError = true →
      e.isFailedToParseOutput = true := by
  intro h hm
  simp only [getAccountParse] at h
  split at h
  · next e' heq => cases h; exact parseKeyValueOutput_error_isFTPO _ _ _ heq
  · split at h
    · cases h; exact Bool.noConfusion hm
    · split at h
      · cases h; exact Bool.noConfusion hm
      · split at h
        · cases h; exact Bool.noConfusion hm
        · exact Except.noConfusion h

theorem lockdownModeGetParse_error_isFTPO (output : String) (e : Exc) :
    lockdownModeGetParse output = .error e → e.isFailedToParseOutput = true := by
  intro h
  simp only [lockdownModeGetParse] at h
  split at h
  · exact Except.noConfusion h
  · split at h
    · exact Except.noConfusion h
    · cases h; rfl

/-- **C5** — Every exception raised to signal a parse failure — by
`get_account`, `lockdown_mode`, `status`, `relay_list` or the key-value
parser — is a `FailedToParseOutput`, which belongs to the family rooted at
`MullvadError`.  The line parsers and `relay_list` produce no other errors
at all; `status` and `get_account` can additionally surface builtin
exceptions (`IndexError`, `ValueError`, `KeyError`, the `dateutil` error),
which are not raised as parse-failure signals, so for them the statement
reads: every `MullvadError`-family error they produce is a
`FailedToParseOutput` (`lockdown_mode`'s only parse-failure raise site
constructs a `FailedToParseOutput` as well, though it is unreachable — see
C2). -/
theorem claim_c5_parse_failures_in_family (out line : String) (strict full : Bool)
    (e : Exc) (dtp : String → Option PyDateTime) :
    (e.isFailedToParseOutput = true → e.isMullvadError = true) ∧
    (parseKeyValueOutput out strict = .error e → e.isFailedToParseOutput = true) ∧
    (parseCountryLine line = .error e → e.isFailedToParseOutput = true) ∧
    (parseCityLine line = .error e → e.isFailedToParseOutput = true) ∧
    (parseServerLine line = .error e → e.isFailedToParseOutput = true) ∧
    (relayListParse out = .error e → e.isFailedToParseOutput = true) ∧
    (lockdownModeGetParse out = .error e → e.isFailedToParseOutput = true) ∧
    (statusParse out full = .error e → e.isMullvadError = true →
      e.isFailedToParseOutput = true) ∧
    (getAccountParse dtp out = .error e → e.isMullvadError = true →
      e.isFailedToParseOutput = true) := by
  refine ⟨?_, parseKeyValueOutput_error_isFTPO out strict e,
    parseCountryLine_error_isFTPO line e, parseCityLine_error_isFTPO line e,
    parseServerLine_error_isFTPO line e, relayListParse_error_isFTPO out e,
    lockdownModeGetParse_error_isFTPO out e, statusParse_family_error_isFTPO out full e,
    getAccountParse_family_error_isFTPO dtp out e⟩
  intro hf
  cases e <;> first | rfl | exact Bool.noConfusion hf

/-- Witness for C5: the theorem applied at concrete failing outputs of the
key-value parser, the three line parsers, `relay_list`, `status` and
`get_account`. -/
theorem claim_c5_witness :
    (Exc.failedToParseOutput "x").isMullvadError = true ∧
    (Exc.failedToParseOutput "nocolon").isFailedToParseOutput = true ∧
    (Exc.failedToParseOutput "???").isFailedToParseOutput = true ∧
    (Exc.failedToParseOutput "##").isFailedToParseOutput = true ∧
    (Exc.failedToParseOutput "@@").isFailedToParseOutput = true ∧
    (Exc.failedToParseOutput "\t\t\tx").isFailedToParseOutput = true ∧
    (Exc.failedToParseOutput "Blah").isFailedToParseOutput = true ∧
    (Exc.failedToParseOutput "no colon here").isFailedToParseOutput = true :=
  ⟨(claim_c5_parse_failures_in_family "" "" true false (.failedToParseOutput "x")
      (fun _ => none)).1 rfl,
   (claim_c5_parse_failures_in_family "nocolon" "" true false
      (.failedToParseOutput "nocolon") (fun _ => none)).2.1 rfl,
   (claim_c5_parse_failures_in_family "" "???" true false (.failedToParseOutput "???")
      (fun _ => none)).2.2.1 rfl,
   (claim_c5_parse_failures_in_family "" "##" true false (.failedToParseOutput "##")
      (fun _ => none)).2.2.2.1 rfl,
   (claim_c5_parse_failures_in_family "" "@@" true false (.failedToParseOutput "@@")
      (fun _ => none)).2.2.2.2.1 rfl,
   (claim_c5_parse_failures_in_family "\t\t\tx\n" "" true false
      (.failedToParseOutput "\t\t\tx") (fun _ => none)).2.2.2.2.2.1 rfl,
   (claim_c5_parse_failures_in_family "Blah\na: b" "" true false
      (.failedToParseOutput "Blah") (fun _ => none)).2.2.2.2.2.2.2.1 rfl rfl,
   (claim_c5_parse_failures_in_family "no colon here" "" true false
      (.failedToParseOutput "no colon here") (fun _ => none)).2.2.2.2.2.2.2.2 rfl rfl⟩

/-! ## C6: mismatching lines raise, with no recovery -/

theorem processRelayLines_bad_line_not_ok (lines : List String) :
    ∀ c ct acc i l, List.get? lines i = some l → (pyStrip l = "" → False) →
      2 < leadingTabs l → (processRelayLines c ct acc lines).isOk = false := by
  induction lines with
  | nil => intro c ct acc i l hl _ _; simp at hl
  | cons line rest ih =>
    intro c ct acc i l hl hb ht
    match i with
    | 0 =>
      rw [List.get?_cons_zero] at hl
      injection hl with h
      subst h
      obtain ⟨n, hn⟩ : ∃ n, leadingTabs line = n + 3 :=
        ⟨leadingTabs line - 3, by omega⟩
      simp only [processRelayLines]
      rw [if_neg hb, hn]
      rfl
    | j + 1 =>
      rw [List.get?_cons_succ] at hl
      simp only [processRelayLines]
      split
      · exact ih _ _ _ j l hl hb ht
      · split
        · split
          · exact ih _ _ _ j l hl hb ht
          · rfl
        · split
          · exact ih _ _ _ j l hl hb ht
          · rfl
        · split
          · split
            · rfl
            · split
              · rfl
              · exact ih _ _ _ j l hl hb ht
          · rfl
        · rfl

/-- **C6** — Each relay-list line parser raises `FailedToParseOutput` on
every input line whose stripped form does not match its pattern, returning
the error rather than any default value; and `relay_list` raises
`FailedToParseOutput` whenever its output contains a non-empty line with
more than two leading tabs. -/
theorem claim_c6_line_parsers_raise_on_mismatch (line out : String) (i : Nat) :
    (reMatchAnchored countryRE (pyStrip line) = none →
      parseCountryLine line = .error (.failedToParseOutput (pyStrip line))) ∧
    (reMatchAnchored cityRE (pyStrip line) = none →
      parseCityLine line = .error (.failedToParseOutput (pyStrip line))) ∧
    (reMatchAnchored serverRE (pyStrip line) = none →
      parseServerLine line = .error (.failedToParseOutput (pyStrip line))) ∧
    (∀ l, List.get? (pySplitlines out) i = some l → pyStrip l ≠ "" →
      2 < leadingTabs l →
      ∃ e, relayListParse out = .error e ∧ e.isFailedToParseOutput = true) := by
  refine ⟨?_, ?_, ?_, ?_⟩
  · intro h; simp only [parseCountryLine, h]
  · intro h; simp only [parseCityLine, h]
  · intro h; simp only [parseServerLine, h]
  · intro l hl hb ht
    have hno : (relayListParse out).isOk = false :=
      processRelayLines_bad_line_not_ok (pySplitlines out) none none [] i l hl
        (fun h => hb h) ht
    match hres : relayListParse out with
    | .ok rs => rw [hres] at hno; exact Bool.noConfusion hno
    | .error e => exact ⟨e, rfl, relayListParse_error_isFTPO out e hres⟩

/-- Witness for C6: a line matching no pattern, and an output with a
three-tab line. -/
theorem claim_c6_witness :
    parseCountryLine "???" = .error (.failedToParseOutput "???") ∧
    ∃ e, relayListParse "\t\t\tbad\n" = .error e ∧ e.isFailedToParseOutput = true :=
  ⟨(claim_c6_line_parsers_raise_on_mismatch "???" "" 0).1 rfl,
   (claim_c6_line_parsers_raise_on_mismatch "" "\t\t\tbad\n" 0).2.2.2 "\t\t\tbad" rfl
     (by decide) (by decide)⟩

/-! ## C1: specification-side characterization of `relay_list` -/

/-- A country line of the relay-list output: non-empty with no leading
tab. -/
def isCountryLine (l : String) : Bool := (pyStrip l != "") && (leadingTabs l == 0)

/-- A city line: non-empty with exactly one leading tab. -/
def isCityLine (l : String) : Bool := (pyStrip l != "") && (leadingTabs l == 1)

/-- A server line: non-empty with exactly two leading tabs. -/
def isServerLine (l : String) : Bool := (pyStrip l != "") && (leadingTabs l == 2)

/-- The last element of a list, if any. -/
def lastOf? : List α → Option α
  | [] => none
  | [x] => some x
  | _ :: y :: rest => lastOf? (y :: rest)

/-- The country in force at line index `i`: the parse of the most recent
country line strictly before `i` (`init` when there is none). -/
def specCountryAt (init : Option (String × String)) (lines : List String) (i : Nat) :
    Option (String × String) :=
  match lastOf? ((lines.take i).filter isCountryLine) with
  | some l => (parseCountryLine l).toOption
  | none => init

/-- The city in force at line index `i`. -/
def specCityAt (init : Option (String × String × String)) (lines : List String)
    (i : Nat) : Option (String × String × String) :=
  match lastOf? ((lines.take i).filter isCityLine) with
  | some l => (parseCityLine l).toOption
  | none => init

/-- Assemble a `Relay` from a parsed country, city and server line. -/
def relayOf (c : String × String) (ct : String × String × String)
    (sv : String × String × Option String × String × String × String) : Relay :=
  { country := c.1, country_code := c.2, city := ct.1, city_code := ct.2.1,
    location := ct.2.2, hostname := sv.1, ipv4 := sv.2.1, ipv6 := sv.2.2.1,
    protocol := sv.2.2.2.1, provider := sv.2.2.2.2.1, ownership := sv.2.2.2.2.2 }

/-- The relay contributed by line index `i`: one per server line, built
from that line's parse and the country and city most recently in force. -/
def specRelayAt (c : Option (String × String)) (ct : Option (String × String × String))
    (lines : List String) (i : Nat) : Option Relay :=
  match List.get? lines i with
  | none => none
  | some l =>
    if isServerLine l then
      match (parseServerLine l).toOption, specCountryAt c lines i, specCityAt ct lines i with
      | some sv, some cv, some ctv => some (relayOf cv ctv sv)
      | _, _, _ => none
    else none

/-- What C1 says `relay_list` returns: one relay per server line of the
output, in output order. -/
def relayListSpec (output : String) : List Relay :=
  (List.range (pySplitlines output).length).filterMap
    (specRelayAt none none (pySplitlines output))

theorem lastOf?_cons_ne_none (y : α) (ys : List α) : lastOf? (y :: ys) ≠ none := by
  induction ys generalizing y with
  | nil => simp [lastOf?]
  | cons z zs ih => simpa [lastOf?] using ih z

theorem specCountryAt_cons (c : Option (String × String)) (l : String)
    (rest : List String) (i : Nat) :
    specCountryAt c (l :: rest) (i + 1) =
      specCountryAt (if isCountryLine l then (parseCountryLine l).toOption else c)
        rest i := by
  simp only [specCountryAt, List.take_succ_cons, List.filter_cons]
  cases h : isCountryLine l with
  | false => simp
  | true =>
    simp only [if_pos rfl]
    cases hF : List.filter isCountryLine (List.take i rest) with
    | nil => simp [lastOf?]
    | cons x xs =>
      cases hL : lastOf? (x :: xs) with
      | none => exact absurd hL (lastOf?_cons_ne_none x xs)
      | some v => simp [lastOf?, hL]

theorem specCityAt_cons (ct : Option (String × String × String)) (l : String)
    (rest : List String) (i : Nat) :
    specCityAt ct (l :: rest) (i + 1) =
      specCityAt (if isCityLine l then (parseCityLine l).toOption else ct) rest i := by
  simp only [specCityAt, List.take_succ_cons, List.filter_cons]
  cases h : isCityLine l with
  | false => simp
  | true =>
    simp only [if_pos rfl]
    cases hF : List.filter isCityLine (List.take i rest) with
    | nil => simp [lastOf?]
    | cons x xs =>
      cases hL : lastOf? (x :: xs) with
      | none => exact absurd hL (lastOf?_cons_ne_none x xs)
      | some v => simp [lastOf?, hL]

theorem specRelayAt_cons (c : Option (String × String))
    (ct : Option (String × String × String)) (l : String) (rest : List String)
    (i : Nat) :
    specRelayAt c ct (l :: rest) (i + 1) =
      specRelayAt (if isCountryLine l then (parseCountryLine l).toOption else c)
        (if isCityLine l then (parseCityLine l).toOption else ct) rest i := by
  simp only [specRelayAt, List.get?_cons_succ, specCountryAt_cons, specCityAt_cons]

theorem filterMap_range_succ (f : Nat → Option α) (n : Nat) :
    (List.range (n + 1)).filterMap f =
      (f 0).toList ++ (List.range n).filterMap (fun i => f (i + 1)) := by
  rw [List.range_succ_eq_map, List.filterMap_cons, List.filterMap_map]
  cases h : f 0 with
  | none => simp [h, Function.comp_def, Nat.succ_eq_add_one]
  | some a => simp [h, Function.comp_def, Nat.succ_eq_add_one]

theorem specRelayAt_zero (c : Option (String × String))
    (ct : Option (String × String × String)) (l : String) (rest : List String) :
    specRelayAt c ct (l :: rest) 0 =
      if isServerLine l then
        match (parseServerLine l).toOption, c, ct with
        | some sv, some cv, some ctv => some (relayOf cv ctv sv)
        | _, _, _ => none
      else none := by
  simp only [specRelayAt, List.get?_cons_zero, specCountryAt, specCityAt,
    List.take_zero, List.filter_nil, lastOf?]

theorem processRelayLines_ok_spec (lines : List String) :
    ∀ c ct acc rs, processRelayLines c ct acc lines = .ok rs →
      rs = acc ++ (List.range lines.length).filterMap (specRelayAt c ct lines) := by
  induction lines with
  | nil =>
    intro c ct acc rs h
    injection h with h
    subst h
    simp
  | cons line rest ih =>
    intro c ct acc rs h
    rw [List.length_cons, filterMap_range_succ, specRelayAt_zero]
    simp only [processRelayLines] at h
    by_cases hb : pyStrip line = ""
    · rw [if_pos hb] at h
      have hsrv : isServerLine line = false := by simp [isServerLine, hb]
      have hcl : isCountryLine line = false := by simp [isCountryLine, hb]
      have hcit : isCityLine line = false := by simp [isCityLine, hb]
      have hshift : (fun i => specRelayAt c ct (line :: rest) (i + 1)) =
          specRelayAt c ct rest := by
        funext i
        rw [specRelayAt_cons]
        simp [hcl, hcit]
      rw [hshift]
      simpa [hsrv] using ih _ _ _ _ h
    · rw [if_neg hb] at h
      split at h
      · -- country line
        next heq =>
        have hsrv : isServerLine line = false := by simp [isServerLine, heq]
        have hcl : isCountryLine line = true := by simp [isCountryLine, hb, heq]
        have hcit : isCityLine line = false := by simp [isCityLine, heq]
        split at h
        · next c0 heq2 =>
          have hshift : (fun i => specRelayAt c ct (line :: rest) (i + 1)) =
              specRelayAt (some c0) ct rest := by
            funext i
            rw [specRelayAt_cons]
            simp [hcl, hcit, heq2, Except.toOption]
          rw [hshift]
          simpa [hsrv] using ih _ _ _ _ h
        · exact Except.noConfusion h
      · -- city line
        next heq =>
        have hsrv : isServerLine line = false := by simp [isServerLine, heq]
        have hcl : isCountryLine line = false := by simp [isCountryLine, heq]
        have hcit : isCityLine line = true := by simp [isCityLine, hb, heq]
        split at h
        · next ct0 heq2 =>
          have hshift : (fun i => specRelayAt c ct (line :: rest) (i + 1)) =
              specRelayAt c (some ct0) rest := by
            funext i
            rw [specRelayAt_cons]
            simp [hcl, hcit, heq2, Except.toOption]
          rw [hshift]
          simpa [hsrv] using ih _ _ _ _ h
        · exact Except.noConfusion h
      · -- server line
        next heq =>
        have hsrv : isServerLine line = true := by simp [isServerLine, hb, heq]
        have hcl : isCountryLine line = false := by simp [isCountryLine, heq]
        have hcit : isCityLine line = false := by simp [isCityLine, heq]
        have hshift : (fun i => specRelayAt c ct (line :: rest) (i + 1)) =
            specRelayAt c ct rest := by
          funext i
          rw [specRelayAt_cons]
          simp [hcl, hcit]
        rw [hshift]
        split at h
        · next hostname ipv4 ipv6 protocol provider ownership heq2 =>
          split at h
          · exact Except.noConfusion h
          · next cv =>
            split at h
            · exact Except.noConfusion h
            · next ctv =>
              have := ih _ _ _ _ h
              simp [hsrv, heq2, Except.toOption, relayOf, this]
        · exact Except.noConfusion h
      · -- more than two leading tabs
        exact Except.noConfusion h

theorem processRelayLines_orphan_not_ok (lines : List String) :
    ∀ c ct acc i l, List.get? lines i = some l → isServerLine l = true →
      ((List.filter isCountryLine (List.take i lines) = [] ∧ c = none) ∨
       (List.filter isCityLine (List.take i lines) = [] ∧ ct = none)) →
      (processRelayLines c ct acc lines).isOk = false := by
  induction lines with
  | nil => intro c ct acc i l hl _ _; simp at hl
  | cons line rest ih =>
    intro c ct acc i l hl hsrv hyp
    match i with
    | 0 =>
      rw [List.get?_cons_zero] at hl
      injection hl with hl
      subst hl
      have hs : pyStrip line ≠ "" ∧ leadingTabs line = 2 := by
        simpa [isServerLine] using hsrv
      simp only [processRelayLines]
      rw [if_neg hs.1, hs.2]
      rcases hyp with ⟨_, rfl⟩ | ⟨_, rfl⟩
      · split
        · next heq => exact absurd heq (by decide)
        · next heq => exact absurd heq (by decide)
        · split
          · rfl
          · rfl
        · next h0 h1 h2 => exact absurd rfl h2
      · split
        · next heq => exact absurd heq (by decide)
        · next heq => exact absurd heq (by decide)
        · split
          · cases c
            · rfl
            · rfl
          · rfl
        · next h0 h1 h2 => exact absurd rfl h2
    | j + 1 =>
      rw [List.get?_cons_succ] at hl
      rcases hyp with ⟨hf, rfl⟩ | ⟨hf, rfl⟩
      · -- no country line before the server line, country state is None
        rw [List.take_succ_cons, List.filter_cons] at hf
        cases hcli : isCountryLine line with
        | true => rw [if_pos (by simp [hcli])] at hf; exact List.noConfusion hf
        | false =>
          rw [if_neg (by simp [hcli])] at hf
          simp only [processRelayLines]
          by_cases hb : pyStrip line = ""
          · rw [if_pos hb]
            exact ih _ _ _ j l hl hsrv (Or.inl ⟨hf, rfl⟩)
          · rw [if_neg hb]
            split
            · next heq => simp [isCountryLine, hb, heq] at hcli
            · split
              · exact ih _ _ _ j l hl hsrv (Or.inl ⟨hf, rfl⟩)
              · rfl
            · split
              · rfl
              · rfl
            · rfl
      · -- no city line before the server line, city state is None
        rw [List.take_succ_cons, List.filter_cons] at hf
        cases hcli : isCityLine line with
        | true => rw [if_pos (by simp [hcli])] at hf; exact List.noConfusion hf
        | false =>
          rw [if_neg (by simp [hcli])] at hf
          simp only [processRelayLines]
          by_cases hb : pyStrip line = ""
          · rw [if_pos hb]
            exact ih _ _ _ j l hl hsrv (Or.inr ⟨hf, rfl⟩)
          · rw [if_neg hb]
            split
            · split
              · exact ih _ _ _ j l hl hsrv (Or.inr ⟨hf, rfl⟩)
              · rfl
            · next heq => simp [isCityLine, hb, heq] at hcli
            · split
              · cases c
                · rfl
                · rfl
              · rfl
            · rfl

/-- **C1** — For every relay-list output on which `relay_list` returns, the
result has one `Relay` per server line (non-empty, exactly two leading
tabs), in output order, with `country`/`country_code` from the most recent
preceding country line (zero tabs) and `city`/`city_code`/`location` from
the most recent preceding city line (one tab); and on every output with a
server line before any country line or before any city line, `relay_list`
raises `FailedToParseOutput`. -/
theorem claim_c1_relay_list_structure (output : String) :
    (∀ rs, relayListParse output = .ok rs → rs = relayListSpec output) ∧
    (∀ i l, List.get? (pySplitlines output) i = some l → isServerLine l = true →
      (List.filter isCountryLine (List.take i (pySplitlines output)) = [] ∨
       List.filter isCityLine (List.take i (pySplitlines output)) = []) →
      ∃ e, relayListParse output = .error e ∧ e.isFailedToParseOutput = true) := by
  constructor
  · intro rs h
    have hs := processRelayLines_ok_spec (pySplitlines output) none none [] rs h
    simpa [relayListSpec] using hs
  · intro i l hl hsrv hyp
    have hno : (relayListParse output).isOk = false := by
      refine processRelayLines_orphan_not_ok (pySplitlines output) none none [] i l hl
        hsrv ?_
      rcases hyp with h | h
      · exact Or.inl ⟨h, rfl⟩
      · exact Or.inr ⟨h, rfl⟩
    match hres : relayListParse output with
    | .ok rs => rw [hres] at hno; exact Bool.noConfusion hno
    | .error e => exact ⟨e, rfl, relayListParse_error_isFTPO output e hres⟩

/-- A well-formed two-country relay-list output used by the C1 witness. -/
def sampleRelayOutput : String :=
  "Sweden (se)\n\tGothenburg (got) @ 57.70887°N, 11.97456°W\n\t\tse-got-wg-001 (185.213.154.68, 2a03:1b20:5:f011::a01f) - WireGuard, hosted by 31173 (Mullvad-owned)\n\t\tse-got-001 (185.213.154.68) - OpenVPN, hosted by 31173 (rented)\n"

/-- The relays `relay_list` produces on `sampleRelayOutput`. -/
def sampleRelays : List Relay :=
  [{ country := "Sweden", country_code := "se", city := "Gothenburg", city_code := "got",
     location := "57.70887°N, 11.97456°W", hostname := "se-got-wg-001",
     ipv4 := "185.213.154.68", ipv6 := some "2a03:1b20:5:f011::a01f",
     protocol := "WireGuard", provider := "31173", ownership := "Mullvad-owned" },
   { country := "Sweden", country_code := "se", city := "Gothenburg", city_code := "got",
     location := "57.70887°N, 11.97456°W", hostname := "se-got-001",
     ipv4 := "185.213.154.68", ipv6 := none,
     protocol := "OpenVPN", provider := "31173", ownership := "rented" }]

/-- Witness for C1: on a concrete success the result agrees with the
per-server-line specification, and a server line with no preceding country
line gives `FailedToParseOutput`. -/
theorem claim_c1_witness :
    sampleRelays = relayListSpec sampleRelayOutput ∧
    ∃ e, relayListParse "\t\tse-got-001 (185.213.154.68) - OpenVPN, hosted by 31173 (rented)\n" =
        .error e ∧ e.isFailedToParseOutput = true :=
  ⟨(claim_c1_relay_list_structure sampleRelayOutput).1 sampleRelays (by rfl),
   (claim_c1_relay_list_structure
       "\t\tse-got-001 (185.213.154.68) - OpenVPN, hosted by 31173 (rented)\n").2 0
     "\t\tse-got-001 (185.213.154.68) - OpenVPN, hosted by 31173 (rented)" (by rfl)
     (by rfl) (Or.inl (by rfl))⟩

/-! ## C4: the `status` line

The branch analysis of `Mullvad.status` needs one fact about the engine:
a successful match binds group 1 of `statusRE` to `"Connected"` or
`"Connecting"`.  This follows from a general lemma: on the successful
path the continuation is invoked with the capture list extended only by
groups of the pattern being matched. -/

/-- The capture-group numbers occurring in a pattern. -/
def grpIdxs : RE → List Nat
  | .lit _ => []
  | .one _ => []
  | .plus _ => []
  | .opt r => grpIdxs r
  | .alt r1 r2 => grpIdxs r1 ++ grpIdxs r2
  | .seq r1 r2 => grpIdxs r1 ++ grpIdxs r2
  | .grp n r => n :: grpIdxs r

theorem dropLit_eq_append (l : List Char) :
    ∀ s rest, dropLit l s = some rest → s = l ++ rest := by
  induction l with
  | nil => intro s rest h; injection h
  | cons c cs ih =>
    intro s rest h
    match s with
    | [] => exact Option.noConfusion h
    | d :: ds =>
      simp only [dropLit] at h
      split at h
      · next hcd =>
        have hds := ih ds rest h
        subst hcd
        rw [hds, List.cons_append]
      · exact Option.noConfusion h

theorem take_of_dropLit (l s rest : List Char) (h : dropLit l s = some rest) :
    s.take (s.length - rest.length) = l := by
  have hs := dropLit_eq_append l s rest h
  subst hs
  rw [List.length_append, Nat.add_sub_cancel, List.take_left]

theorem capLookup_append_of_ne (pre g : Caps) (n : Nat)
    (hne : ∀ p ∈ pre, p.1 ≠ n) : capLookup (pre ++ g) n = capLookup g n := by
  induction pre with
  | nil => rfl
  | cons p rest ih =>
    simp only [List.cons_append, capLookup]
    rw [if_neg (hne p (List.mem_cons_self p rest))]
    exact ih (fun q hq => hne q (List.mem_cons_of_mem p hq))

theorem plusGo_some (cls : Char → Bool) (k : List Char → Option Caps) :
    ∀ s res, plusGo cls k s = some res → ∃ rest, k rest = some res := by
  intro s
  induction s with
  | nil => intro res h; exact Option.noConfusion h
  | cons c cs ih =>
    intro res h
    simp only [plusGo] at h
    split at h
    · match h2 : plusGo cls k cs with
      | some r =>
        rw [h2] at h
        injection h with h
        subst h
        exact ih _ h2
      | none =>
        rw [h2] at h
        exact ⟨cs, h⟩
    · exact Option.noConfusion h

theorem matchGo_some_caps (r : RE) :
    ∀ s g k res, matchGo r s g k = some res →
      ∃ s' pre, (∀ p ∈ pre, p.1 ∈ grpIdxs r) ∧ k s' (pre ++ g) = some res := by
  induction r with
  | lit l =>
    intro s g k res h
    simp only [matchGo] at h
    split at h
    · next rest heq => exact ⟨rest, [], by simp, h⟩
    · exact Option.noConfusion h
  | one cls =>
    intro s g k res h
    simp only [matchGo] at h
    split at h
    · next c rest =>
      split at h
      · exact ⟨rest, [], by simp, h⟩
      · exact Option.noConfusion h
    · exact Option.noConfusion h
  | plus cls =>
    intro s g k res h
    simp only [matchGo] at h
    obtain ⟨rest, hk⟩ := plusGo_some cls _ s res h
    exact ⟨rest, [], by simp, hk⟩
  | opt r ihr =>
    intro s g k res h
    simp only [matchGo] at h
    match h2 : matchGo r s g k with
    | some r' =>
      rw [h2] at h
      injection h with h
      subst h
      obtain ⟨s', pre, hm, hk⟩ := ihr _ _ _ _ h2
      exact ⟨s', pre, hm, hk⟩
    | none =>
      rw [h2] at h
      exact ⟨s, [], by simp, h⟩
  | alt r1 r2 ih1 ih2 =>
    intro s g k res h
    simp only [matchGo] at h
    match h2 : matchGo r1 s g k with
    | some r' =>
      rw [h2] at h
      injection h with h
      subst h
      obtain ⟨s', pre, hm, hk⟩ := ih1 _ _ _ _ h2
      refine ⟨s', pre, fun p hp => ?_, hk⟩
      exact List.mem_append.mpr (Or.inl (hm p hp))
    | none =>
      rw [h2] at h
      obtain ⟨s', pre, hm, hk⟩ := ih2 _ _ _ _ h
      refine ⟨s', pre, fun p hp => ?_, hk⟩
      exact List.mem_append.mpr (Or.inr (hm p hp))
  | seq r1 r2 ih1 ih2 =>
    intro s g k res h
    simp only [matchGo] at h
    obtain ⟨s1, pre1, hm1, hk1⟩ := ih1 _ _ _ _ h
    obtain ⟨s2, pre2, hm2, hk2⟩ := ih2 _ _ _ _ hk1
    refine ⟨s2, pre2 ++ pre1, fun p hp => ?_, by rwa [← List.append_assoc] at hk2⟩
    rcases List.mem_append.mp hp with hp | hp
    · exact List.mem_append.mpr (Or.inr (hm2 p hp))
    · exact List.mem_append.mpr (Or.inl (hm1 p hp))
  | grp n r ihr =>
    intro s g k res h
    simp only [matchGo] at h
    obtain ⟨s1, pre1, hm1, hk1⟩ := ihr _ _ _ _ h
    refine ⟨s1, (n, (⟨s.take (s.length - s1.length)⟩ : String)) :: pre1,
      fun p hp => ?_, hk1⟩
    rcases List.mem_cons.mp hp with rfl | hp
    · exact List.mem_cons_self n (grpIdxs r)
    · exact List.mem_cons_of_mem n (hm1 p hp)

/-- The part of `statusRE` after the leading group. -/
def statusTail : RE :=
  reSeq [L " to ",
         .grp 2 (.plus (fun c => c.isAlphanum || c = '-')),
         L " in ",
         .grp 3 (.plus (fun c => isWordChar c || c = ' ' || c = ',' || c = '-')),
         .opt (L "...")]

theorem statusRE_eq :
    statusRE = .seq (.grp 1 (.alt (L "Connected") (L "Connecting"))) statusTail := rfl

theorem tail_caps_lookup (tail : RE) (rest : List Char) (g caps : Caps)
    (hne : ∀ m ∈ grpIdxs tail, m ≠ 1)
    (h : matchGo tail rest g reEnd = some caps) :
    capLookup caps 1 = capLookup g 1 := by
  obtain ⟨s', pre, hm, hk⟩ := matchGo_some_caps tail rest g reEnd caps h
  simp only [reEnd] at hk
  split at hk
  · injection hk with hk
    subst hk
    exact capLookup_append_of_ne pre g 1 (fun p hp => hne p.1 (hm p hp))
  · exact Option.noConfusion hk

theorem litBranch_group1 (l : List Char) (tail : RE) (s : List Char) (caps : Caps)
    (hne : ∀ m ∈ grpIdxs tail, m ≠ 1)
    (h : (match dropLit l s with
          | some rest =>
            matchGo tail rest
              [(1, (⟨List.take (s.length - rest.length) s⟩ : String))] reEnd
          | none => none) = some caps) :
    capLookup caps 1 = some (⟨l⟩ : String) := by
  rcases hd : dropLit l s with _ | rest
  · rw [hd] at h
    exact Option.noConfusion h
  · rw [hd] at h
    have h' : matchGo tail rest
        [(1, (⟨List.take (s.length - rest.length) s⟩ : String))] reEnd = some caps := h
    have hcl := tail_caps_lookup tail rest _ caps hne h'
    rw [take_of_dropLit l s rest hd] at hcl
    simpa [capLookup] using hcl

theorem altBranch_group1 (a b : List Char) (tail : RE) (s : List Char) (caps : Caps)
    (hne : ∀ m ∈ grpIdxs tail, m ≠ 1)
    (h : (match (match dropLit a s with
                 | some rest =>
                   matchGo tail rest
                     [(1, (⟨List.take (s.length - rest.length) s⟩ : String))] reEnd
                 | none => none) with
          | some res => some res
          | none =>
            match dropLit b s with
            | some rest =>
              matchGo tail rest
                [(1, (⟨List.take (s.length - rest.length) s⟩ : String))] reEnd
            | none => none) = some caps) :
    capLookup caps 1 = some (⟨a⟩ : String) ∨ capLookup caps 1 = some (⟨b⟩ : String) := by
  rcases hda : dropLit a s with _ | restA
  · rw [hda] at h
    have h' : (match dropLit b s with
               | some rest =>
                 matchGo tail rest
                   [(1, (⟨List.take (s.length - rest.length) s⟩ : String))] reEnd
               | none => none) = some caps := h
    exact Or.inr (litBranch_group1 b tail s caps hne h')
  · rw [hda] at h
    have h' : (match matchGo tail restA
                 [(1, (⟨List.take (s.length - restA.length) s⟩ : String))] reEnd with
               | some res => some res
               | none =>
                 match dropLit b s with
                 | some rest =>
                   matchGo tail rest
                     [(1, (⟨List.take (s.length - rest.length) s⟩ : String))] reEnd
                 | none => none) = some caps := h
    rcases hTA : matchGo tail restA
        [(1, (⟨List.take (s.length - restA.length) s⟩ : String))] reEnd with _ | res
    · rw [hTA] at h'
      have h'' : (match dropLit b s with
                  | some rest =>
                    matchGo tail rest
                      [(1, (⟨List.take (s.length - rest.length) s⟩ : String))] reEnd
                  | none => none) = some caps := h'
      exact Or.inr (litBranch_group1 b tail s caps hne h'')
    · rw [hTA] at h'
      injection h' with h'
      subst h'
      left
      have hcl := tail_caps_lookup tail restA _ res hne hTA
      rw [take_of_dropLit a s restA hda] at hcl
      simpa [capLookup] using hcl

theorem statusRE_group1 (s : String) (caps : Caps)
    (h : reMatchAnchored statusRE s = some caps) :
    capLookup caps 1 = some "Connected" ∨ capLookup caps 1 = some "Connecting" := by
  rw [statusRE_eq] at h
  simp only [reMatchAnchored, matchGo, L] at h
  exact altBranch_group1 ("Connected".data) ("Connecting".data) statusTail s.data caps
    (by decide) h

/-- **C4** (amended) — For every status output that contains a newline,
writing `ts` for the stripped first line: (a) when `ts` contains
"disconnected" or "disconnecting" (case-insensitively) and the remainder
passes the strict key-value parse, `status()` returns `connected=False`
with `server_name` and `location` unset; (b) when `ts` contains neither
marker, matches the Connected/Connecting pattern, and the remainder passes
the strict key-value parse, it returns `connected=True` exactly when the
first word is `Connected`, with `status`, `server_name` and `location`
taken from that line; (c) when `ts` contains neither marker and does not
match the pattern, `FailedToParseOutput` is raised. -/
theorem claim_c4_status_parse (output first rest : String)
    (hsplit1 : (splitNl1 output).1 = first)
    (hsplit2 : (splitNl1 output).2 = some rest) :
    (∀ d, parseKeyValueOutput rest true = .ok d →
      (containsStr (pyLower (pyStrip first)) "disconnected" = true ∨
       containsStr (pyLower (pyStrip first)) "disconnecting" = true) →
      statusParse output false = .ok
        { connected := false,
          status := if containsStr (pyLower (pyStrip first)) "disconnected" then
              .disconnected else .disconnecting,
          server_name := none, location := none,
          ipv4 := dictLookup d "ipv4", position := dictLookup d "position" }) ∧
    (∀ d caps, parseKeyValueOutput rest true = .ok d →
      containsStr (pyLower (pyStrip first)) "disconnected" = false →
      containsStr (pyLower (pyStrip first)) "disconnecting" = false →
      reMatchAnchored statusRE (pyStrip first) = some caps →
      ∃ g1, capLookup caps 1 = some g1 ∧ (g1 = "Connected" ∨ g1 = "Connecting") ∧
        statusParse output false = .ok
          { connected := g1 == "Connected",
            status := if g1 == "Connected" then .connected else .connecting,
            server_name := capLookup caps 2, location := capLookup caps 3,
            ipv4 := dictLookup d "ipv4", position := dictLookup d "position" }) ∧
    (containsStr (pyLower (pyStrip first)) "disconnected" = false →
      containsStr (pyLower (pyStrip first)) "disconnecting" = false →
      reMatchAnchored statusRE (pyStrip first) = none →
      ∃ e, statusParse output false = .error e ∧ e.isFailedToParseOutput = true) := by
  refine ⟨?_, ?_, ?_⟩
  · intro d hd hdisc
    simp only [statusParse, hsplit1, hsplit2, Bool.false_and, Bool.not_false, hd]
    rcases hdisc with h1 | h1
    · simp [h1]
    · simp [h1]
  · intro d caps hd h1 h2 hm
    rcases statusRE_group1 (pyStrip first) caps hm with hg | hg
    · refine ⟨"Connected", hg, Or.inl rfl, ?_⟩
      simp only [statusParse, hsplit1, hsplit2, Bool.false_and, Bool.not_false, hd, h1,
        h2, hm, hg, Bool.or_false, Option.getD_some]
      rfl
    · refine ⟨"Connecting", hg, Or.inr rfl, ?_⟩
      simp only [statusParse, hsplit1, hsplit2, Bool.false_and, Bool.not_false, hd, h1,
        h2, hm, hg, Bool.or_false, Option.getD_some]
      rfl
  · intro h1 h2 hm
    cases hkv : parseKeyValueOutput rest true with
    | error e =>
      refine ⟨e, ?_, parseKeyValueOutput_error_isFTPO rest true e hkv⟩
      simp only [statusParse, hsplit1, hsplit2, Bool.false_and, Bool.not_false, hkv]
    | ok d =>
      refine ⟨.failedToParseOutput (pyStrip first), ?_, rfl⟩
      simp only [statusParse, hsplit1, hsplit2, Bool.false_and, Bool.not_false, hkv, h1,
        h2, hm, Bool.or_false]
      simp

/-- Counterexample to C4 as stated: the first line
`Connected to se1 in Disconnectedville` matches the Connected/Connecting
pattern, yet `status` returns `connected=False` with `status=DISCONNECTED`
(and no server name or location), because the case-insensitive substring
test for "disconnected" runs before the pattern match and the location
contains it. -/
theorem claim_c4_counterexample :
    (reMatchAnchored statusRE (pyStrip "Connected to se1 in Disconnectedville")).isSome
        = true ∧
    statusParse "Connected to se1 in Disconnectedville\n" false =
      .ok { connected := false, status := .disconnected } :=
  ⟨rfl, rfl⟩

/-- Witness for C4: the theorem applied to the concrete outputs
`"Disconnected\n"` (branch (a)) and `"Blah\n"` (branch (c)). -/
theorem claim_c4_witness :
    statusParse "Disconnected\n" false = .ok { connected := false, status := .disconnected } ∧
    ∃ e, statusParse "Blah\n" false = .error e ∧ e.isFailedToParseOutput = true :=
  ⟨(claim_c4_status_parse "Disconnected\n" "Disconnected" "" rfl rfl).1 [] rfl
     (Or.inl (by decide)),
   (claim_c4_status_parse "Blah\n" "Blah" "" rfl rfl).2.2 (by decide) (by decide) rfl⟩
